import Mathlib

/-!
Verification of the IEVR Mod Manager against its specification.

The development shallowly embeds the parts of the program the claims are
about:

* src/src/mod_manager.py — ModManager.scan_mods and the metadata loader
  (here load_mod_metadata, the leading underscore of the Python name
  dropped), together with get_enabled_mods;
* src/src/viola_integration.py — ViolaIntegration.merge_mods,
  copy_merged_files and cleanup_temp, modelled as effect-trace producers
  over an explicit environment describing the filesystem and the child
  process;
* src/src/ui/main_window.py — apply_mods and the background worker
  run_merge_and_copy (Python: _run_merge_and_copy), likewise as effect
  traces.

Filesystem enumeration, metadata file contents, process spawning and
per-file copy outcomes are inputs of the model (fields of Disk, MetaFile,
MergeEnv, CopyEnv, ApplyEnv); everything the program itself computes is
translated directly from the source.
-/

/-- The os.path.join of two components, with the separator abstracted
to a slash. -/
def joinPath (a b : String) : String := a ++ "/" ++ b

/-! ## Data model (src/src/models.py) -/

/-- A mod entry as built by ModManager.scan_mods. The Python class stores
the enabled flag in a tk.BooleanVar; its value is a plain Bool here. -/
structure ModEntry where
  name : String
  path : String
  enabled : Bool
  display_name : String
  author : String
  mod_version : String
  game_version : String
deriving DecidableEq, Repr

/-- One element of the persisted mods list, a JSON object with a name and
an optional enabled key (m.get with default True in the source). -/
structure SavedMod where
  name : String
  enabled : Option Bool
deriving DecidableEq, Repr

/-! ## Metadata loading (ModManager._load_mod_metadata) -/

/-- The state of a mod folder's mod_data.json: absent, present but not
loadable as a JSON object (json.load or dict access raises), or loaded
with its four optional string fields. -/
inductive MetaFile where
  | absent
  | invalid
  | parsed (nameField authorField modVersionField gameVersionField : Option String)
deriving DecidableEq, Repr

/-- Python truthiness fallback: the expression data.get(key) or default,
where a missing key (None) and an empty string are both falsy. -/
def orDefault (v : Option String) (d : String) : String :=
  match v with
  | none => d
  | some s => if s = "" then d else s

/-- The metadata record returned by the loader. -/
structure Metadata where
  display_name : String
  author : String
  mod_version : String
  game_version : String
deriving DecidableEq, Repr

/-- ModManager._load_mod_metadata: defaults keyed on the folder basename,
overridden from the parsed JSON with Python-or fallback per field; any
failure to read or parse leaves the defaults. -/
def load_mod_metadata (file : MetaFile) (basename : String) : Metadata :=
  match file with
  | .absent => ⟨basename, "", "", ""⟩
  | .invalid => ⟨basename, "", "", ""⟩
  | .parsed n a mv gv =>
      ⟨orDefault n basename, orDefault a "", orDefault mv "", orDefault gv ""⟩

/-! ## Reconciliation (ModManager.scan_mods) -/

/-- The on-disk state scan_mods reads: the subdirectory names of the mods
root in filesystem enumeration order, and each folder's metadata file. -/
structure Disk where
  mod_names : List String
  meta : String → MetaFile

/-- Lookup in a Python dict built by a comprehension over a list of pairs:
a later binding for the same key overrides an earlier one, so the value is
that of the last matching pair. -/
def dict_lookup (pairs : List (String × Bool)) (k : String) : Option Bool :=
  (pairs.reverse.find? (fun p => p.1 == k)).map (fun p => p.2)

/-- The old_map dict of scan_mods: name to enabled over existing_entries. -/
def old_map (existing : List ModEntry) (k : String) : Option Bool :=
  dict_lookup (existing.map (fun e => (e.name, e.enabled))) k

/-- The saved_map dict of scan_mods: name to enabled (default True when
the key is absent) over saved_mods. -/
def saved_map (saved : List SavedMod) (k : String) : Option Bool :=
  dict_lookup (saved.map (fun m => (m.name, m.enabled.getD true))) k

/-- The saved_order list of scan_mods. -/
def saved_order (saved : List SavedMod) : List String :=
  saved.map (fun m => m.name)

/-- The ordered_names list of scan_mods: saved order filtered to names on
disk, then disk names not in the saved order, in enumeration order. -/
def ordered_names (saved : List SavedMod) (mod_names : List String) : List String :=
  (saved_order saved).filter (fun n => mod_names.contains n) ++
    mod_names.filter (fun n => !(saved_order saved).contains n)

/-- The per-name enabled resolution of scan_mods: existing in-memory state,
else saved state, else True. -/
def resolve_enabled (om sm : String → Option Bool) (name : String) : Bool :=
  match om name with
  | some b => b
  | none =>
      match sm name with
      | some b => b
      | none => true

/-- The entry scan_mods builds for one name: the path is the join of the
mods root and the name, the enabled flag is the resolved one, and the
remaining fields come from the loaded metadata. -/
def mk_entry (mods_root : String) (disk : Disk) (saved : List SavedMod)
    (existing : List ModEntry) (name : String) : ModEntry :=
  { name := name
    path := joinPath mods_root name
    enabled := resolve_enabled (old_map existing) (saved_map saved) name
    display_name := (load_mod_metadata (disk.meta name) name).display_name
    author := (load_mod_metadata (disk.meta name) name).author
    mod_version := (load_mod_metadata (disk.meta name) name).mod_version
    game_version := (load_mod_metadata (disk.meta name) name).game_version }

/-- ModManager.scan_mods: reconcile the on-disk folder list with the saved
configuration and the existing in-memory entries. -/
def scan_mods (mods_root : String) (disk : Disk) (saved : List SavedMod)
    (existing : List ModEntry) : List ModEntry :=
  (ordered_names saved disk.mod_names).map (mk_entry mods_root disk saved existing)

/-- ModManager.get_enabled_mods: the paths of the enabled entries. -/
def get_enabled_mods (mod_entries : List ModEntry) : List String :=
  (mod_entries.filter (fun me => me.enabled)).map (fun me => me.path)

/-! ## Theorems about scan_mods -/

/-- The names of the scanned entries are exactly the ordered_names list. -/
theorem scan_names_eq_ordered (mods_root : String) (disk : Disk) (saved : List SavedMod)
    (existing : List ModEntry) :
    (scan_mods mods_root disk saved existing).map (fun e => e.name) =
      ordered_names saved disk.mod_names := by
  have h : ((fun e => e.name) ∘ mk_entry mods_root disk saved existing) = id := by
    funext n; rfl
  simp only [scan_mods, List.map_map, h, List.map_id]

/-- C1: the name sequence produced by scan_mods is the previously-saved
order restricted to names currently on disk, followed by the on-disk names
not present in the saved order, in filesystem enumeration order. -/
theorem scan_mods_order (mods_root : String) (disk : Disk) (saved : List SavedMod)
    (existing : List ModEntry) :
    (scan_mods mods_root disk saved existing).map (fun e => e.name) =
      (saved.map (fun m => m.name)).filter (fun n => disk.mod_names.contains n) ++
        disk.mod_names.filter (fun n => !(saved.map (fun m => m.name)).contains n) :=
  scan_names_eq_ordered mods_root disk saved existing

/-- Finding a key among mapped key-value pairs returns the value at the key. -/
theorem find_pair_map (f : String → Bool) (k : String) (l : List String) (h : k ∈ l) :
    (((l.map (fun n => (n, f n))).find? (fun p => p.1 == k)).map (fun p => p.2)) =
      some (f k) := by
  induction l with
  | nil => cases h
  | cons n t ih =>
    by_cases hk : n = k
    · subst hk
      simp [List.find?]
    · have hbe : (n == k) = false := by simp [hk]
      have ht : k ∈ t := by
        rcases List.mem_cons.mp h with h1 | h1
        · exact absurd h1.symm hk
        · exact h1
      simp only [List.map_cons, List.find?]
      simp only [hbe]
      exact ih ht

/-- dict_lookup over pairs built from a key list by a value function. -/
theorem dict_lookup_map_pairs (f : String → Bool) (k : String) (l : List String)
    (h : k ∈ l) :
    dict_lookup (l.map (fun n => (n, f n))) k = some (f k) := by
  unfold dict_lookup
  rw [← List.map_reverse]
  exact find_pair_map f k l.reverse (List.mem_reverse.mpr h)

/-- The old_map built from a scan result maps every scanned name to its
resolved enabled value. -/
theorem old_map_scan (mods_root : String) (disk : Disk) (saved : List SavedMod)
    (existing : List ModEntry) (k : String)
    (h : k ∈ ordered_names saved disk.mod_names) :
    old_map (scan_mods mods_root disk saved existing) k =
      some (resolve_enabled (old_map existing) (saved_map saved) k) := by
  unfold old_map scan_mods
  rw [List.map_map]
  have hcomp : ((fun e => (e.name, e.enabled)) ∘ mk_entry mods_root disk saved existing) =
      (fun n => (n, resolve_enabled (old_map existing) (saved_map saved) n)) := by
    funext n; rfl
  rw [hcomp]
  exact dict_lookup_map_pairs _ k _ h

/-- C4: reconciliation is idempotent: rescanning with the same disk state,
the same saved list, and the first result as the existing entries returns
the first result unchanged (same names, order, enabled flags and data). -/
theorem scan_mods_idempotent (mods_root : String) (disk : Disk) (saved : List SavedMod)
    (existing : List ModEntry) :
    scan_mods mods_root disk saved (scan_mods mods_root disk saved existing) =
      scan_mods mods_root disk saved existing := by
  have h : ∀ n ∈ ordered_names saved disk.mod_names,
      mk_entry mods_root disk saved (scan_mods mods_root disk saved existing) n =
        mk_entry mods_root disk saved existing n := by
    intro n hn
    have he : resolve_enabled (old_map (scan_mods mods_root disk saved existing))
        (saved_map saved) n =
        resolve_enabled (old_map existing) (saved_map saved) n := by
      simp [resolve_enabled, old_map_scan mods_root disk saved existing n hn]
    simp [mk_entry, he]
  exact List.map_congr_left h

/-- C2: in the scanned list, the enabled flag of each entry is resolved
with priority in-memory existing state, then saved state, then default
true; in particular an in-memory false beats a saved true. -/
theorem scan_mods_enabled_priority (mods_root : String) (disk : Disk)
    (saved : List SavedMod) (existing : List ModEntry) (e : ModEntry)
    (he : e ∈ scan_mods mods_root disk saved existing) :
    (∀ b, old_map existing e.name = some b → e.enabled = b) ∧
    (old_map existing e.name = none →
      ∀ b, saved_map saved e.name = some b → e.enabled = b) ∧
    (old_map existing e.name = none → saved_map saved e.name = none →
      e.enabled = true) ∧
    (old_map existing e.name = some false → saved_map saved e.name = some true →
      e.enabled = false) := by
  simp only [scan_mods, List.mem_map] at he
  obtain ⟨n, hn, rfl⟩ := he
  simp only [mk_entry]
  refine ⟨?_, ?_, ?_, ?_⟩
  · intro b hb
    simp [resolve_enabled, hb]
  · intro h1 b h2
    simp [resolve_enabled, h1, h2]
  · intro h1 h2
    simp [resolve_enabled, h1, h2]
  · intro h1 _
    simp [resolve_enabled, h1]

/-- A disk with a single folder A and no metadata files. -/
def diskA : Disk := ⟨["A"], fun _ => MetaFile.absent⟩

/-- An in-memory entry for mod A with enabled set to false. -/
def existingAoff : ModEntry := ⟨"A", "mods/A", false, "A", "", "", ""⟩

/-- A saved list marking mod A enabled. -/
def savedAon : List SavedMod := [⟨"A", some true⟩]

/-- C2 witness: with A on disk, in-memory disabled and saved enabled, the
scanned entry for A is disabled. -/
theorem scan_mods_enabled_priority_witness :
    (mk_entry "mods" diskA savedAon [existingAoff] "A").enabled = false := by
  have hm : mk_entry "mods" diskA savedAon [existingAoff] "A" ∈
      scan_mods "mods" diskA savedAon [existingAoff] := by decide
  exact (scan_mods_enabled_priority "mods" diskA savedAon [existingAoff] _ hm).2.2.2
    (by decide) (by decide)

/-- Nodup ordered_names are a permutation of the disk names when the saved
names are themselves duplicate-free. -/
theorem ordered_names_perm (mods : List String) (saved : List SavedMod)
    (hdisk : mods.Nodup) (hsaved : (saved_order saved).Nodup) :
    (ordered_names saved mods).Perm mods := by
  apply List.perm_of_nodup_nodup_toFinset_eq
  · apply List.Nodup.append
    · exact hsaved.filter _
    · exact hdisk.filter _
    · intro x hxA hxB
      have h1 : x ∈ saved_order saved := (List.mem_filter.mp hxA).1
      have h2 := (List.mem_filter.mp hxB).2
      simp at h2
      exact h2 h1
  · exact hdisk
  · ext x
    simp only [ordered_names, List.toFinset_append, Finset.mem_union,
      List.mem_toFinset, List.mem_filter]
    constructor
    · rintro (⟨_, h⟩ | ⟨h, _⟩)
      · simpa using h
      · exact h
    · intro h
      by_cases hs : x ∈ saved_order saved
      · exact Or.inl ⟨hs, by simpa using h⟩
      · exact Or.inr ⟨h, by simpa using hs⟩

/-- C3 amended: when the on-disk names are duplicate-free (as a directory
listing is) and the saved list has no duplicate names, the scanned name
sequence is a permutation of the on-disk folder names: each current folder
appears exactly once, none dropped, none extra. -/
theorem scan_mods_names_exact (mods_root : String) (disk : Disk)
    (saved : List SavedMod) (existing : List ModEntry)
    (hdisk : disk.mod_names.Nodup)
    (hsaved : (saved.map (fun m => m.name)).Nodup) :
    ((scan_mods mods_root disk saved existing).map (fun e => e.name)).Perm
      disk.mod_names := by
  rw [scan_names_eq_ordered]
  exact ordered_names_perm disk.mod_names saved hdisk hsaved

/-- A disk listing the three folders A, B, C with no metadata files. -/
def diskABC : Disk := ⟨["A", "B", "C"], fun _ => MetaFile.absent⟩

/-- The saved list of the spec example: order B then A, A disabled. -/
def savedBA : List SavedMod := [⟨"B", some true⟩, ⟨"A", some false⟩]

/-- C3 witness: on the spec example the scanned names are a permutation of
the on-disk names. -/
theorem scan_mods_names_exact_witness :
    (["A", "B", "C"] : List String).Nodup ∧
    ((scan_mods "mods" diskABC savedBA []).map (fun e => e.name)).Perm
      ["A", "B", "C"] :=
  ⟨by decide, scan_mods_names_exact "mods" diskABC savedBA [] (by decide) (by decide)⟩

/-- C3 counterexample: a saved list naming A twice while A is on disk
makes scan_mods list A twice, so the name sequence is not a permutation of
the on-disk names (A does not appear exactly once). -/
theorem scan_mods_names_exact_counterexample :
    (scan_mods "mods" diskA [⟨"A", none⟩, ⟨"A", none⟩] []).map (fun e => e.name) =
      ["A", "A"] ∧
    ¬ (((scan_mods "mods" diskA [⟨"A", none⟩, ⟨"A", none⟩] []).map
        (fun e => e.name)).Perm diskA.mod_names) := by
  constructor
  · rfl
  · decide

/-- Every on-disk name appears in the ordered_names list. -/
theorem mem_ordered_names (saved : List SavedMod) (mods : List String) (n : String)
    (h : n ∈ mods) : n ∈ ordered_names saved mods := by
  unfold ordered_names
  by_cases hs : n ∈ saved_order saved
  · exact List.mem_append_left _ (by simp [List.mem_filter, hs, h])
  · exact List.mem_append_right _ (by simp [List.mem_filter, h, hs])

/-- C10: metadata loading is total: every on-disk folder yields a scanned
entry; when its mod_data.json is absent or unparseable the display name is
the folder name and author, mod_version and game_version are empty; a
missing or empty Name field likewise falls back to the folder name. -/
theorem scan_metadata_total (mods_root : String) (disk : Disk)
    (saved : List SavedMod) (existing : List ModEntry) (n : String)
    (hn : n ∈ disk.mod_names) :
    mk_entry mods_root disk saved existing n ∈
      scan_mods mods_root disk saved existing ∧
    (mk_entry mods_root disk saved existing n).name = n ∧
    ((disk.meta n = MetaFile.absent ∨ disk.meta n = MetaFile.invalid) →
      (mk_entry mods_root disk saved existing n).display_name = n ∧
      (mk_entry mods_root disk saved existing n).author = "" ∧
      (mk_entry mods_root disk saved existing n).mod_version = "" ∧
      (mk_entry mods_root disk saved existing n).game_version = "") ∧
    (∀ a mv gv, (disk.meta n = MetaFile.parsed none a mv gv ∨
        disk.meta n = MetaFile.parsed (some "") a mv gv) →
      (mk_entry mods_root disk saved existing n).display_name = n) := by
  refine ⟨?_, rfl, ?_, ?_⟩
  · exact List.mem_map_of_mem _ (mem_ordered_names saved disk.mod_names n hn)
  · rintro (h | h) <;> simp [mk_entry, load_mod_metadata, h]
  · rintro a mv gv (h | h) <;> simp [mk_entry, load_mod_metadata, h, orDefault]

/-- A disk with a single folder A whose metadata file is unparseable. -/
def diskInv : Disk := ⟨["A"], fun _ => MetaFile.invalid⟩

/-- C10 witness: an unparseable metadata file still yields an entry whose
display name is the folder name and whose author is empty. -/
theorem scan_metadata_total_witness :
    (mk_entry "mods" diskInv [] [] "A").display_name = "A" ∧
    (mk_entry "mods" diskInv [] [] "A").author = "" :=
  ⟨((scan_metadata_total "mods" diskInv [] [] "A" (by decide)).2.2.1 (Or.inr rfl)).1,
   ((scan_metadata_total "mods" diskInv [] [] "A" (by decide)).2.2.1 (Or.inr rfl)).2.1⟩

/-! ## Effect traces for the apply workflow

The process-spawning and file-copying code of viola_integration.py and
main_window.py is modelled as functions producing a list of effects over an
environment that describes the filesystem and the child process. Each log
effect constructor stands for one distinct message site in the source (the
exact message text is abstracted into the constructor). -/

/-- An observable side effect of the apply workflow. -/
inductive Effect where
  /-- messagebox.showinfo in apply_mods. -/
  | showInfo (msg : String)
  /-- messagebox.showerror in apply_mods. -/
  | showError (msg : String)
  /-- os.makedirs. -/
  | makeDirs (path : String)
  /-- shutil.copy2 of one file (also one file copied inside copytree). -/
  | copyFile (src dst : String)
  /-- subprocess.Popen of the merge tool in merge_mods. -/
  | spawnMerge (cmd : List String)
  /-- one line of child stdout consumed from the pipe and logged. -/
  | outputLine (line : String)
  /-- threading.Thread(...).start() of the merge worker in apply_mods. -/
  | startWorker
  /-- shutil.rmtree in cleanup_temp. -/
  | removeTree (path : String)
  /-- log: Error: violacli.exe not found. -/
  | logToolNotFound
  /-- log: Error: cpk_list.cfg.bin not found. -/
  | logCfgNotFound
  /-- log: Executing command: followed by the command line. -/
  | logExecCommand (cmd : List String)
  /-- log: Execution error (FileNotFoundError from Popen). -/
  | logExecutionError
  /-- log: Unexpected error (any other exception). -/
  | logUnexpected
  /-- log: violacli finished with the given exit code. -/
  | logFinishedWithCode (rc : Int)
  /-- log: violacli returned error; aborting copy. -/
  | logAbortCopy
  /-- log: MODS APPLIED. -/
  | logApplied
  /-- log: CHANGES APPLIED, no mods selected. -/
  | logAppliedNoMods
  /-- log: Error applying changes (baseline copy raised). -/
  | logApplyError
  /-- log: source was not found, aborting (copy_merged_files). -/
  | logCopyNotFound (path : String)
  /-- log: Copying src to dst, overwriting if needed. -/
  | logCopying (src dst : String)
  /-- log: Error copying one file (fallback walk of copy_merged_files). -/
  | logCopyFileError (src dst : String)
  /-- log: Copy completed. -/
  | logCopyCompleted
  /-- log: Failed to copy merged files (worker). -/
  | logCopyFailed
  /-- log: Removed temporary folder. -/
  | logRemoved (path : String)
  /-- log: Could not remove temporary folder. -/
  | logRemoveError (path : String)
deriving DecidableEq, Repr

/-! ## ViolaIntegration.merge_mods -/

/-- The outcome of subprocess.Popen plus the child process run: the spawn
raises FileNotFoundError, some other exception occurs, or the child runs
producing stdout lines and an exit code. -/
inductive SpawnResult where
  | fileNotFound
  | otherError
  | ok (outputLines : List String) (exitCode : Int)
deriving DecidableEq, Repr

/-- The environment merge_mods runs against. -/
structure MergeEnv where
  violacli_exists : Bool
  cfgbin_exists : Bool
  spawn : SpawnResult
deriving DecidableEq, Repr

/-- The command line merge_mods builds. -/
def merge_cmd (violacli_path cfgbin_path : String) (mod_paths : List String)
    (output_dir : String) : List String :=
  [violacli_path, "-m", "merge", "-p", "PC", "--cl", cfgbin_path] ++ mod_paths ++
    ["-o", output_dir]

/-- ViolaIntegration.merge_mods: check the tool and baseline paths, create
the output directory, log and spawn the command, stream the child output
to the log, wait, and return whether the exit code is zero. A
FileNotFoundError from the spawn and any other exception are caught and
logged, returning false. -/
def merge_mods (violacli_path cfgbin_path : String) (mod_paths : List String)
    (output_dir : String) (env : MergeEnv) : Bool × List Effect :=
  if env.violacli_exists = false then
    (false, [Effect.logToolNotFound])
  else if env.cfgbin_exists = false then
    (false, [Effect.logCfgNotFound])
  else
    let cmd := merge_cmd violacli_path cfgbin_path mod_paths output_dir
    let pre : List Effect :=
      [Effect.makeDirs output_dir, Effect.logExecCommand cmd, Effect.spawnMerge cmd]
    match env.spawn with
    | SpawnResult.fileNotFound => (false, pre ++ [Effect.logExecutionError])
    | SpawnResult.otherError => (false, pre ++ [Effect.logUnexpected])
    | SpawnResult.ok lines rc =>
        (rc == 0, pre ++ lines.map Effect.outputLine ++ [Effect.logFinishedWithCode rc])

/-! ## ViolaIntegration.copy_merged_files and cleanup_temp -/

/-- The environment copy_merged_files runs against: whether the source
exists and is a directory, whether shutil.copytree accepts dirs_exist_ok
(a TypeError otherwise routes to the per-file fallback walk), and the
files to copy, each with the success of its individual copy. Nested
directories are abstracted into relative file paths. -/
structure CopyEnv where
  source_is_dir : Bool
  dirs_exist_ok_supported : Bool
  files : List (String × Bool)
deriving DecidableEq, Repr

/-- ViolaIntegration.copy_merged_files. The first component is some r when
the function returns r, and none when an exception escapes it: on the
copytree path shutil.copytree attempts every file, collects per-file
errors and raises an aggregated shutil.Error at the end, which the
function does not catch (its try only catches TypeError); on the fallback
path each file copy is tried separately and failures are only logged. -/
def copy_merged_files (tmp_data_dir game_data_dir : String) (env : CopyEnv) :
    Option Bool × List Effect :=
  if env.source_is_dir = false then
    (some false, [Effect.logCopyNotFound tmp_data_dir])
  else
    let pre : List Effect :=
      [Effect.logCopying tmp_data_dir game_data_dir, Effect.makeDirs game_data_dir]
    if env.dirs_exist_ok_supported then
      let attempts := env.files.map (fun f =>
        Effect.copyFile (joinPath tmp_data_dir f.1) (joinPath game_data_dir f.1))
      if env.files.all (fun f => f.2) then
        (some true, pre ++ attempts ++ [Effect.logCopyCompleted])
      else
        (none, pre ++ attempts)
    else
      let attempts := env.files.flatMap (fun f =>
        Effect.copyFile (joinPath tmp_data_dir f.1) (joinPath game_data_dir f.1) ::
          (if f.2 then [] else
            [Effect.logCopyFileError (joinPath tmp_data_dir f.1)
              (joinPath game_data_dir f.1)]))
      (some true, pre ++ attempts ++ [Effect.logCopyCompleted])

/-- ViolaIntegration.cleanup_temp: remove the temporary tree, logging the
outcome. -/
def cleanup_temp (tmp_data_dir : String) (rm_ok : Bool) : Bool × List Effect :=
  if rm_ok then (true, [Effect.removeTree tmp_data_dir, Effect.logRemoved tmp_data_dir])
  else (false, [Effect.logRemoveError tmp_data_dir])

/-! ## MainWindow.apply_mods and the merge worker -/

/-- How the try block around the baseline copy of apply_mods plays out:
both steps succeed, os.makedirs raises, or shutil.copy2 raises. -/
inductive BaselineCopy where
  | ok
  | mkdirFails
  | copyFails
deriving DecidableEq, Repr

/-- The environment apply_mods runs against: whether a merge is already in
flight, the three configured paths (the values of the text fields after
the strip applied on read, which is part of reading the environment), the
filesystem facts about them, the temporary directory, and the outcome of
the baseline copy. -/
structure ApplyEnv where
  running : Bool
  game_path : String
  cfgbin : String
  violacli : String
  game_path_is_dir : Bool
  cfgbin_exists : Bool
  violacli_exists : Bool
  tmp_root : String
  baseline : BaselineCopy
deriving DecidableEq, Repr

/-- MainWindow.apply_mods up to handing off to the background worker:
reject when a process is running, validate the three paths in order, and
either restore the baseline config (zero enabled mods) or create the
temporary root and start the merge worker. -/
def apply_mods (env : ApplyEnv) (mod_entries : List ModEntry) : List Effect :=
  if env.running then [Effect.showInfo "A process is already running."]
  else
    let game_path := env.game_path
    let cfgbin := env.cfgbin
    let violacli := env.violacli
    if game_path = "" ∨ env.game_path_is_dir = false then
      [Effect.showError "Invalid game path."]
    else if cfgbin = "" ∨ env.cfgbin_exists = false then
      [Effect.showError "Invalid cpk_list.cfg.bin path."]
    else if violacli = "" ∨ env.violacli_exists = false then
      [Effect.showError "violacli.exe not found. Please configure its path."]
    else
      let enabled_mods := get_enabled_mods mod_entries
      if enabled_mods.isEmpty then
        let target := joinPath (joinPath game_path "data") "cpk_list.cfg.bin"
        match env.baseline with
        | BaselineCopy.ok =>
            [Effect.makeDirs (joinPath game_path "data"),
             Effect.copyFile cfgbin target, Effect.logAppliedNoMods]
        | BaselineCopy.mkdirFails => [Effect.logApplyError]
        | BaselineCopy.copyFails =>
            [Effect.makeDirs (joinPath game_path "data"), Effect.logApplyError]
      else
        [Effect.makeDirs env.tmp_root, Effect.startWorker]

/-- The environment of the background worker. -/
structure WorkerEnv where
  merge : MergeEnv
  copy : CopyEnv
  rm_ok : Bool
deriving DecidableEq, Repr

/-- MainWindow._run_merge_and_copy (the background worker): merge, abort
on failure, otherwise copy the merged data and clean up; an exception
escaping the copy is caught by the worker's blanket handler and logged. -/
def run_merge_and_copy (violacli cfgbin : String) (mod_paths : List String)
    (tmp_root game_path : String) (env : WorkerEnv) : List Effect :=
  let m := merge_mods violacli cfgbin mod_paths tmp_root env.merge
  if m.1 = false then m.2 ++ [Effect.logAbortCopy]
  else
    let tmp_data := joinPath tmp_root "data"
    let dest_data := joinPath game_path "data"
    let c := copy_merged_files tmp_data dest_data env.copy
    match c.1 with
    | none => m.2 ++ c.2 ++ [Effect.logUnexpected]
    | some true => m.2 ++ c.2 ++ (cleanup_temp tmp_data env.rm_ok).2 ++ [Effect.logApplied]
    | some false => m.2 ++ c.2 ++ [Effect.logCopyFailed]

/-! ## Theorems about the apply workflow -/

/-- C6: merge_mods returns true exactly when the child exit code is zero;
a missing tool path yields false with its own logged error, and a
FileNotFoundError from the spawn yields false with a distinct logged
execution error, no consumed output line and no exit-code report. -/
theorem merge_mods_exit_and_errors (vp cp : String) (mods : List String)
    (out : String) (env : MergeEnv) :
    (∀ lines rc, env.violacli_exists = true → env.cfgbin_exists = true →
      env.spawn = SpawnResult.ok lines rc →
      (merge_mods vp cp mods out env).1 = (rc == 0)) ∧
    (env.violacli_exists = false →
      merge_mods vp cp mods out env = (false, [Effect.logToolNotFound])) ∧
    (env.violacli_exists = true → env.cfgbin_exists = true →
      env.spawn = SpawnResult.fileNotFound →
      (merge_mods vp cp mods out env).1 = false ∧
      Effect.logExecutionError ∈ (merge_mods vp cp mods out env).2 ∧
      (∀ s, Effect.outputLine s ∉ (merge_mods vp cp mods out env).2) ∧
      (∀ rc, Effect.logFinishedWithCode rc ∉ (merge_mods vp cp mods out env).2)) := by
  obtain ⟨ve, ce, sp⟩ := env
  refine ⟨?_, ?_, ?_⟩
  · intro lines rc hv hc hs
    simp only at hv hc hs
    subst hv hc hs
    simp [merge_mods]
  · intro hv
    simp only at hv
    subst hv
    simp [merge_mods]
  · intro hv hc hs
    simp only at hv hc hs
    subst hv hc hs
    refine ⟨by simp [merge_mods], by simp [merge_mods], ?_, ?_⟩
    · intro s
      simp [merge_mods]
    · intro rc
      simp [merge_mods]

/-- C6 witness: with both paths present and the spawn raising
FileNotFoundError, merge_mods yields false with the execution error
logged and no output line consumed. -/
theorem merge_mods_exit_and_errors_witness :
    (merge_mods "viola.exe" "cpk_list.cfg.bin" ["mods/A"] "tmp"
      ⟨true, true, SpawnResult.fileNotFound⟩).1 = false ∧
    Effect.logExecutionError ∈
      (merge_mods "viola.exe" "cpk_list.cfg.bin" ["mods/A"] "tmp"
        ⟨true, true, SpawnResult.fileNotFound⟩).2 :=
  ⟨((merge_mods_exit_and_errors "viola.exe" "cpk_list.cfg.bin" ["mods/A"] "tmp"
      ⟨true, true, SpawnResult.fileNotFound⟩).2.2 rfl rfl rfl).1,
   ((merge_mods_exit_and_errors "viola.exe" "cpk_list.cfg.bin" ["mods/A"] "tmp"
      ⟨true, true, SpawnResult.fileNotFound⟩).2.2 rfl rfl rfl).2.1⟩

/-- C7: with a merge not already in flight and an empty or non-directory
game path, apply_mods emits only the blocking error dialog: no directory
creation, no file copy, no process spawn and no background worker. -/
theorem apply_mods_rejects_invalid_game_path (env : ApplyEnv)
    (mod_entries : List ModEntry) (hr : env.running = false)
    (hg : env.game_path = "" ∨ env.game_path_is_dir = false) :
    apply_mods env mod_entries = [Effect.showError "Invalid game path."] ∧
    (∀ p, Effect.makeDirs p ∉ apply_mods env mod_entries) ∧
    (∀ s d, Effect.copyFile s d ∉ apply_mods env mod_entries) ∧
    (∀ cmd, Effect.spawnMerge cmd ∉ apply_mods env mod_entries) ∧
    Effect.startWorker ∉ apply_mods env mod_entries := by
  have h : apply_mods env mod_entries = [Effect.showError "Invalid game path."] := by
    simp [apply_mods, hr, hg]
  refine ⟨h, ?_, ?_, ?_, ?_⟩ <;> simp [h]

/-- C7 witness: an empty game path is rejected with only the error dialog. -/
theorem apply_mods_rejects_invalid_game_path_witness :
    apply_mods ⟨false, "", "c.bin", "v.exe", false, true, true, "tmp", BaselineCopy.ok⟩ [] =
      [Effect.showError "Invalid game path."] :=
  (apply_mods_rejects_invalid_game_path
    ⟨false, "", "c.bin", "v.exe", false, true, true, "tmp", BaselineCopy.ok⟩ []
    rfl (Or.inl rfl)).1

/-- C5: when validation passes and no mod is enabled, apply_mods spawns no
merge process and starts no worker; it copies the baseline file to
game_path/data/cpk_list.cfg.bin, and when that copy succeeds the whole
trace is exactly the directory creation, the baseline copy and the
success log. -/
theorem apply_mods_no_mods_copies_baseline (env : ApplyEnv)
    (mod_entries : List ModEntry) (hr : env.running = false)
    (hg1 : env.game_path ≠ "") (hg2 : env.game_path_is_dir = true)
    (hc1 : env.cfgbin ≠ "") (hc2 : env.cfgbin_exists = true)
    (hv1 : env.violacli ≠ "") (hv2 : env.violacli_exists = true)
    (hm : get_enabled_mods mod_entries = []) :
    (∀ cmd, Effect.spawnMerge cmd ∉ apply_mods env mod_entries) ∧
    Effect.startWorker ∉ apply_mods env mod_entries ∧
    (env.baseline = BaselineCopy.ok →
      apply_mods env mod_entries =
        [Effect.makeDirs (joinPath env.game_path "data"),
         Effect.copyFile env.cfgbin
           (joinPath (joinPath env.game_path "data") "cpk_list.cfg.bin"),
         Effect.logAppliedNoMods]) := by
  have hise : (get_enabled_mods mod_entries).isEmpty = true := by
    simp [hm]
  refine ⟨?_, ?_, ?_⟩
  · intro cmd
    cases hb : env.baseline <;>
      simp [apply_mods, hr, hg1, hg2, hc1, hc2, hv1, hv2, hise, hb]
  · cases hb : env.baseline <;>
      simp [apply_mods, hr, hg1, hg2, hc1, hc2, hv1, hv2, hise, hb]
  · intro hb
    simp [apply_mods, hr, hg1, hg2, hc1, hc2, hv1, hv2, hise, hb]

/-- An entry for mod A that is disabled (used to exercise the zero-enabled
apply path with a non-empty mod list). -/
def entryAoff : ModEntry := ⟨"A", "mods/A", false, "A", "", "", ""⟩

/-- C5 witness: with valid paths and only a disabled mod, apply_mods is
exactly the baseline restore trace. -/
theorem apply_mods_no_mods_copies_baseline_witness :
    apply_mods ⟨false, "game", "c.bin", "v.exe", true, true, true, "tmp",
        BaselineCopy.ok⟩ [entryAoff] =
      [Effect.makeDirs "game/data",
       Effect.copyFile "c.bin" "game/data/cpk_list.cfg.bin",
       Effect.logAppliedNoMods] :=
  (apply_mods_no_mods_copies_baseline
    ⟨false, "game", "c.bin", "v.exe", true, true, true, "tmp", BaselineCopy.ok⟩
    [entryAoff] rfl (by decide) rfl (by decide) rfl (by decide) rfl rfl).2.2 rfl

/-- C8: when the merge tool runs and exits non-zero, the worker logs the
abort message, copies no file into the game directory (no per-file copy
and no copy phase at all) and never reports the mods as applied. -/
theorem run_merge_and_copy_skips_copy_on_failure (vp cp : String)
    (mods : List String) (tmp gp : String) (env : WorkerEnv)
    (lines : List String) (rc : Int)
    (hv : env.merge.violacli_exists = true) (hc : env.merge.cfgbin_exists = true)
    (hs : env.merge.spawn = SpawnResult.ok lines rc) (hrc : rc ≠ 0) :
    Effect.logAbortCopy ∈ run_merge_and_copy vp cp mods tmp gp env ∧
    (∀ s d, Effect.copyFile s d ∉ run_merge_and_copy vp cp mods tmp gp env) ∧
    (∀ s d, Effect.logCopying s d ∉ run_merge_and_copy vp cp mods tmp gp env) ∧
    Effect.logApplied ∉ run_merge_and_copy vp cp mods tmp gp env := by
  obtain ⟨⟨ve, ce, sp⟩, cenv, rm⟩ := env
  simp only at hv hc hs
  subst hv hc hs
  have hbeq : (rc == 0) = false := by
    simpa using hrc
  refine ⟨?_, ?_, ?_, ?_⟩
  · simp [run_merge_and_copy, merge_mods, hbeq]
  · intro s d
    simp [run_merge_and_copy, merge_mods, hbeq]
  · intro s d
    simp [run_merge_and_copy, merge_mods, hbeq]
  · simp [run_merge_and_copy, merge_mods, hbeq]

/-- C8 witness: an exit code of 1 leads to the abort log and no copy
phase. -/
theorem run_merge_and_copy_skips_copy_on_failure_witness :
    Effect.logAbortCopy ∈ run_merge_and_copy "v.exe" "c.bin" ["mods/A"] "tmp" "game"
      ⟨⟨true, true, SpawnResult.ok ["err"] 1⟩, ⟨true, true, []⟩, true⟩ ∧
    Effect.logApplied ∉ run_merge_and_copy "v.exe" "c.bin" ["mods/A"] "tmp" "game"
      ⟨⟨true, true, SpawnResult.ok ["err"] 1⟩, ⟨true, true, []⟩, true⟩ :=
  ⟨(run_merge_and_copy_skips_copy_on_failure "v.exe" "c.bin" ["mods/A"] "tmp" "game"
      ⟨⟨true, true, SpawnResult.ok ["err"] 1⟩, ⟨true, true, []⟩, true⟩ ["err"] 1
      rfl rfl rfl (by decide)).1,
   (run_merge_and_copy_skips_copy_on_failure "v.exe" "c.bin" ["mods/A"] "tmp" "game"
      ⟨⟨true, true, SpawnResult.ok ["err"] 1⟩, ⟨true, true, []⟩, true⟩ ["err"] 1
      rfl rfl rfl (by decide)).2.2.2⟩

/-- C9 amended: copy_merged_files returns false with nothing copied when
the source is missing or not a directory; when the source is a directory,
the fallback walk (copytree without dirs_exist_ok support) logs per-file
errors and still returns true, and the copytree path returns true exactly
when every individual copy succeeds — a failed copy there makes the
aggregated copytree error escape the function instead of returning. -/
theorem copy_merged_files_outcomes (src dst : String) (env : CopyEnv) :
    (env.source_is_dir = false →
      copy_merged_files src dst env =
        (some false, [Effect.logCopyNotFound src])) ∧
    (env.source_is_dir = true → env.dirs_exist_ok_supported = false →
      (copy_merged_files src dst env).1 = some true ∧
      Effect.logCopyCompleted ∈ (copy_merged_files src dst env).2 ∧
      (∀ f ∈ env.files, f.2 = false →
        Effect.logCopyFileError (joinPath src f.1) (joinPath dst f.1) ∈
          (copy_merged_files src dst env).2)) ∧
    (env.source_is_dir = true → env.dirs_exist_ok_supported = true →
      (env.files.all (fun f => f.2) = true →
        (copy_merged_files src dst env).1 = some true) ∧
      (env.files.all (fun f => f.2) = false →
        (copy_merged_files src dst env).1 = none ∧
        Effect.logCopyCompleted ∉ (copy_merged_files src dst env).2)) := by
  obtain ⟨sd, sup, files⟩ := env
  refine ⟨?_, ?_, ?_⟩
  · intro h
    simp only at h
    subst h
    simp [copy_merged_files]
  · intro h1 h2
    simp only at h1 h2
    subst h1 h2
    refine ⟨by simp [copy_merged_files], by simp [copy_merged_files], ?_⟩
    intro f hf hfail
    have hmem : Effect.logCopyFileError (joinPath src f.1) (joinPath dst f.1) ∈
        files.flatMap (fun g =>
          Effect.copyFile (joinPath src g.1) (joinPath dst g.1) ::
            (if g.2 then [] else
              [Effect.logCopyFileError (joinPath src g.1) (joinPath dst g.1)])) := by
      simp only [List.mem_flatMap]
      exact ⟨f, hf, by simp [hfail]⟩
    show Effect.logCopyFileError (joinPath src f.1) (joinPath dst f.1) ∈
      ([Effect.logCopying src dst, Effect.makeDirs dst] ++
        files.flatMap (fun g =>
          Effect.copyFile (joinPath src g.1) (joinPath dst g.1) ::
            (if g.2 then [] else
              [Effect.logCopyFileError (joinPath src g.1) (joinPath dst g.1)])) ++
        [Effect.logCopyCompleted])
    exact List.mem_append_left _ (List.mem_append_right _ hmem)
  · intro h1 h2
    simp only at h1 h2
    subst h1 h2
    constructor
    · intro hall
      simp [copy_merged_files, hall]
    · intro hnot
      constructor
      · simp [copy_merged_files, hnot]
      · simp [copy_merged_files, hnot]

/-- C9 counterexample: with the source directory present, copytree
supporting dirs_exist_ok, and a single file whose copy fails, the function
does not return true — the aggregated copy error escapes instead. -/
theorem copy_merged_files_counterexample :
    (copy_merged_files "tmp/data" "game/data"
        ⟨true, true, [("a.bin", false)]⟩).1 = none ∧
    ¬ ((copy_merged_files "tmp/data" "game/data"
        ⟨true, true, [("a.bin", false)]⟩).1 = some true) := by
  constructor
  · rfl
  · decide

/-- C9 witness: a missing source yields false with only the abort log, and
on the fallback path a failed file copy is logged while the function still
reports completion. -/
theorem copy_merged_files_outcomes_witness :
    copy_merged_files "tmp/data" "game/data" ⟨false, true, []⟩ =
      (some false, [Effect.logCopyNotFound "tmp/data"]) ∧
    (copy_merged_files "tmp/data" "game/data" ⟨true, false, [("a.bin", false)]⟩).1 =
      some true :=
  ⟨(copy_merged_files_outcomes "tmp/data" "game/data" ⟨false, true, []⟩).1 rfl,
   ((copy_merged_files_outcomes "tmp/data" "game/data"
      ⟨true, false, [("a.bin", false)]⟩).2.1 rfl rfl).1⟩
